import Mathlib

/-!
Shallow embedding of the ipfs-lite host-assembly core (`util.go`):
the `SetupLibp2p` assembler, the `newDHT` dual routing-table constructor,
the `DefaultBootstrapPeers` helper, and the process-wide connection
manager.  External collaborators (go-libp2p option application, the dual
DHT constructor, multiaddr parsing) are modelled through the narrow
behaviour the code and the specification rely on.
-/

namespace IpfsLite

/-- Raw bytes, modelling a Go byte slice (a pre-shared key is such a slice). -/
abbrev Bytes := List Nat

/-- The transports go-libp2p can install.  `util.go` mentions `tcp.NewTCPTransport`
and `websocket.New` explicitly; the remaining ones are members of
`libp2p.DefaultTransports`. -/
inductive Transport where
  | tcp
  | quic
  | websocket
  | webtransport
  | webrtc
deriving DecidableEq, Repr

/-- Which transports can run under a private-network pre-shared key.
TCP and WebSocket go through the connection upgrader and support pnet;
the QUIC-family transports reject a configured pre-shared key. -/
def Transport.supportsPrivateNetwork : Transport → Bool
  | .tcp => true
  | .websocket => true
  | .quic => false
  | .webtransport => false
  | .webrtc => false

/-- The transport list installed by `libp2p.DefaultTransports`. -/
def defaultTransportList : List Transport :=
  [.tcp, .quic, .websocket, .webtransport, .webrtc]

/-- The yamux tuning knobs that `SetupLibp2p` sets (a projection of
`yamuxv5.Config` onto the fields the code touches).  Intervals are in
seconds. -/
structure YamuxConfig where
  maxStreamWindowSize : Nat
  acceptBacklog : Nat
  enableKeepAlive : Bool
  keepAliveIntervalSec : Nat
  maxMessageSize : Nat
  logDiscard : Bool
deriving DecidableEq, Repr

/-- Baseline values of `yamuxv5.DefaultConfig()` for the modelled fields
(every one of them is overwritten by `SetupLibp2p` except that the log
output starts at stderr). -/
def yamuxDefaultConfig : YamuxConfig :=
  { maxStreamWindowSize := 16 * 1024 * 1024
    acceptBacklog := 256
    enableKeepAlive := true
    keepAliveIntervalSec := 30
    maxMessageSize := 64 * 1024
    logDiscard := false }

/-- The yamux configuration `SetupLibp2p` builds: it starts from the
default configuration and overwrites window size (4 MiB), accept backlog
(128), keep-alive (on, 15 s) and maximum message size (16 MiB), and
discards the log output. -/
def setupYamuxConfig : YamuxConfig :=
  { yamuxDefaultConfig with
    maxStreamWindowSize := 1024 * 1024 * 4
    acceptBacklog := 128
    enableKeepAlive := true
    keepAliveIntervalSec := 15
    maxMessageSize := 16 * 1024 * 1024
    logDiscard := true }

/-- Connection-manager policy: low/high watermarks and the grace period
in seconds. -/
structure ConnMgrConfig where
  lowWater : Nat
  highWater : Nat
  gracePeriodSec : Nat
deriving DecidableEq, Repr

/-- The package-level connection manager of `util.go`:
`connmgr.NewConnManager(100, 600, connmgr.WithGracePeriod(time.Minute))`,
created once per process. -/
def connMgr : ConnMgrConfig :=
  { lowWater := 100, highWater := 600, gracePeriodSec := 60 }

/-- DHT operating mode (`dht.ModeOpt`). -/
inductive ModeOpt where
  | auto
  | client
  | server
  | autoServer
deriving DecidableEq, Repr

/-- A record validator: the public-key validator, or the IPNS validator
carrying the key book it resolves keys from (the host's peerstore,
identified by a peerstore id). -/
inductive Validator where
  | publicKey
  | ipns (keyBook : Option Nat)
deriving DecidableEq, Repr

/-- Options to a single DHT instance, the subset `newDHT` uses. -/
inductive DHTOpt where
  | namespacedValidator (ns : String) (v : Validator)
  | concurrency (alpha : Nat)
  | mode (m : ModeOpt)
  | datastore (storeId : Nat)
deriving DecidableEq, Repr

/-- Configuration of a single DHT instance before construction. A `none`
datastore means the instance allocates its own in-memory store. -/
structure DHTConfig where
  validators : List (String × Validator)
  alpha : Nat
  mode : ModeOpt
  datastore : Option Nat
deriving DecidableEq, Repr

/-- Defaults of the kad-dht package: a namespaced validator map already
holding a "pk" and an "ipns" entry (the default IPNS validator has no
key book), query concurrency 10, auto mode, and no bound datastore. -/
def dhtDefaultConfig : DHTConfig :=
  { validators := [("pk", .publicKey), ("ipns", .ipns none)]
    alpha := 10
    mode := .auto
    datastore := none }

/-- Update of the namespaced-validator map: replace the entry for the
namespace when present, append it otherwise. -/
def setValidator : List (String × Validator) → String → Validator → List (String × Validator)
  | [], ns, v => [(ns, v)]
  | (ns0, v0) :: rest, ns, v =>
    if ns0 = ns then (ns, v) :: rest else (ns0, v0) :: setValidator rest ns v

/-- Apply one DHT option to a DHT configuration. -/
def applyDHTOpt (c : DHTConfig) : DHTOpt → DHTConfig
  | .namespacedValidator ns v => { c with validators := setValidator c.validators ns v }
  | .concurrency a => { c with alpha := a }
  | .mode m => { c with mode := m }
  | .datastore s => { c with datastore := some s }

/-- Identity of the record store a DHT instance ends up using: either the
caller-shared store, or a store freshly allocated by that instance
(tagged by the owning host and by which of the two dual instances it is,
because each allocation is distinct). -/
inductive StoreRef where
  | shared (storeId : Nat)
  | fresh (hostId : Nat) (lanScoped : Bool)
deriving DecidableEq, Repr

/-- A constructed DHT instance. -/
structure DHTInstance where
  validators : List (String × Validator)
  alpha : Nat
  mode : ModeOpt
  datastore : StoreRef
deriving DecidableEq, Repr

/-- The dual DHT: a public (WAN) and a private (LAN) instance. -/
structure DualDHT where
  wan : DHTInstance
  lan : DHTInstance
deriving DecidableEq, Repr

/-- The two stores of a dual DHT. -/
def DualDHT.stores (d : DualDHT) : List StoreRef :=
  [d.wan.datastore, d.lan.datastore]

/-- A constructed libp2p host, reified as the settings host construction
derived from its final configuration. -/
structure Host where
  hostId : Nat
  peerstoreId : Nat
  listenAddrs : List String
  psk : Option Bytes
  transports : List Transport
  muxers : List (String × YamuxConfig)
  connMgr : Option ConnMgrConfig
deriving DecidableEq, Repr

/-- Build one DHT instance from a folded configuration: a `none`
datastore resolves to a fresh in-memory store owned by this instance. -/
def dhtInstance (h : Host) (lanScoped : Bool) (c : DHTConfig) : DHTInstance :=
  { validators := c.validators
    alpha := c.alpha
    mode := c.mode
    datastore :=
      match c.datastore with
      | some s => .shared s
      | none => .fresh h.hostId lanScoped }

/-- Modelled from the spec: the dual routing-table constructor
(`dualdht.New`, external to this repository) applies each shared
`dualdht.DHTOption` to both the public (WAN) and the private (LAN)
instance, each instance defaulting to an independent in-memory store
when none is configured. -/
def dualdhtNew (h : Host) (opts : List DHTOpt) : DualDHT :=
  let c := opts.foldl applyDHTOpt dhtDefaultConfig
  { wan := dhtInstance h false c, lan := dhtInstance h true c }

/-- `newDHT` from `util.go`: two namespaced validators ("pk" and "ipns"
keyed by the host's peerstore), concurrency 10 and the caller's mode as
shared options; the datastore option is appended only when a datastore
is supplied. -/
def newDHT (h : Host) (ds : Option Nat) (dhtMode : ModeOpt) : DualDHT :=
  let dhtOpts : List DHTOpt :=
    [.namespacedValidator "pk" .publicKey,
     .namespacedValidator "ipns" (.ipns (some h.peerstoreId)),
     .concurrency 10,
     .mode dhtMode]
  let dhtOpts :=
    match ds with
    | some s => dhtOpts ++ [.datastore s]
    | none => dhtOpts
  dualdhtNew h dhtOpts

/-- The accumulated libp2p configuration that options write into
(the slice of `libp2p.Config` this repository's code exercises).
`none` for transports and muxers means "not touched yet", so the
fallback defaults still apply. -/
structure Config where
  peerKey : Option Nat
  listenAddrs : List String
  psk : Option Bytes
  transports : Option (List Transport)
  muxers : Option (List (String × YamuxConfig))
  connMgrC : Option ConnMgrConfig
  routingP : Option (Host → Except String DualDHT)
  natPortMap : Bool
  autoRelay : Bool
  natService : Bool

/-- The empty configuration `libp2p.New` starts from. -/
def defaultConfig : Config :=
  { peerKey := none
    listenAddrs := []
    psk := none
    transports := none
    muxers := none
    connMgrC := none
    routingP := none
    natPortMap := false
    autoRelay := false
    natService := false }

/-- The libp2p options this code base touches. Models the external
go-libp2p option constructors: `Identity` and `PrivateNetwork` and
`ConnectionManager` and `Routing` refuse to be applied twice, the
others append to or set their field. -/
inductive BaseOpt where
  | identity (key : Nat)
  | listenAddrs (addrs : List String)
  | privateNetwork (psk : Option Bytes)
  | transport (t : Transport)
  | noTransports
  | muxer (protoName : String) (mc : YamuxConfig)
  | connectionManager (cm : ConnMgrConfig)
  | routing (provider : Host → Except String DualDHT)
  | natPortMap
  | enableAutoRelayWithPeerSource
  | enableNATService

/-- A libp2p option: a single option, or a `ChainOptions` combination
of options applied in order. -/
inductive Opt where
  | base (o : BaseOpt)
  | chain (os : List BaseOpt)

/-- Apply one base option to a configuration; options may fail, which
aborts host construction. -/
def applyBase (c : Config) : BaseOpt → Except String Config
  | .identity k =>
    if c.peerKey.isSome then .error "cannot specify multiple identities"
    else .ok { c with peerKey := some k }
  | .listenAddrs as => .ok { c with listenAddrs := c.listenAddrs ++ as }
  | .privateNetwork s =>
    if c.psk.isSome then .error "specified multiple private network options"
    else .ok { c with psk := s }
  | .transport t => .ok { c with transports := some (c.transports.getD [] ++ [t]) }
  | .noTransports => .ok { c with transports := some [] }
  | .muxer n mc => .ok { c with muxers := some (c.muxers.getD [] ++ [(n, mc)]) }
  | .connectionManager cm =>
    if c.connMgrC.isSome then .error "cannot specify multiple connection managers"
    else .ok { c with connMgrC := some cm }
  | .routing p =>
    if c.routingP.isSome then .error "cannot specify multiple routing options"
    else .ok { c with routingP := some p }
  | .natPortMap => .ok { c with natPortMap := true }
  | .enableAutoRelayWithPeerSource => .ok { c with autoRelay := true }
  | .enableNATService => .ok { c with natService := true }

/-- Apply a list of base options in order, stopping at the first error. -/
def applyBases : Config → List BaseOpt → Except String Config
  | c, [] => .ok c
  | c, o :: os =>
    match applyBase c o with
    | .ok c2 => applyBases c2 os
    | .error e => .error e

/-- Apply one option. -/
def applyOpt (c : Config) : Opt → Except String Config
  | .base o => applyBase c o
  | .chain os => applyBases c os

/-- Apply a list of options in order, stopping at the first error. -/
def applyOpts : Config → List Opt → Except String Config
  | c, [] => .ok c
  | c, o :: os =>
    match applyOpt c o with
    | .ok c2 => applyOpts c2 os
    | .error e => .error e

/-- `libp2p.DefaultTransports`: a chain installing every default transport. -/
def libp2pDefaultTransports : Opt :=
  .chain (defaultTransportList.map .transport)

/-- The fallback defaults `libp2p.New` applies for the modelled fields:
the default transports when no transport option ran, and the default
muxer when no muxer option ran. -/
def applyFallbackDefaults (c : Config) : Config :=
  let c1 :=
    if c.transports.isNone then { c with transports := some defaultTransportList } else c
  if c1.muxers.isNone then
    { c1 with muxers := some [("/yamux/1.0.0", yamuxDefaultConfig)] }
  else c1

/-- The host a finished configuration yields. -/
def mkHost (k : Nat) (c : Config) : Host :=
  { hostId := k
    peerstoreId := k
    listenAddrs := c.listenAddrs
    psk := c.psk
    transports := c.transports.getD []
    muxers := c.muxers.getD []
    connMgr := c.connMgrC }

/-- Modelled from the spec: assembly-time validation that a configured
pre-shared key is exactly 32 raw bytes ("any other length is a
configuration error at assembly time, not deferred to connection
time"). -/
def pskLenOk (c : Config) : Bool :=
  match c.psk with
  | none => true
  | some s => s.length == 32

/-- Modelled from the spec: when a pre-shared key is configured, every
configured transport must be capable of private-network encryption,
otherwise host construction is rejected. -/
def pskTransportsOk (c : Config) : Bool :=
  match c.psk with
  | none => true
  | some _ => (c.transports.getD []).all Transport.supportsPrivateNetwork

/-- Models the external `libp2p.New`: fold the options over the empty
configuration, apply fallback defaults, validate, build the host, and
run the routing provider (whose result `SetupLibp2p` captures). -/
def libp2pNew (opts : List Opt) : Except String (Host × Option DualDHT) :=
  match applyOpts defaultConfig opts with
  | .error e => .error e
  | .ok c0 =>
    let c := applyFallbackDefaults c0
    match c.peerKey with
    | none => .error "libp2p: no peer identity configured"
    | some k =>
      if pskLenOk c = false then
        .error "libp2p: private network psk is not 32 bytes"
      else if pskTransportsOk c = false then
        .error "libp2p: transport does not support private networks"
      else
        match c.routingP with
        | none => .ok (mkHost k c, none)
        | some p =>
          match p (mkHost k c) with
          | .error e => .error e
          | .ok d => .ok (mkHost k c, some d)

/-- The transport option `SetupLibp2p` selects: with a secret, a chain
that first disables every transport and then installs TCP and WebSocket
only; without a secret, the default transports. -/
def setupTransports (secret : Option Bytes) : Opt :=
  if secret.isSome then
    .chain [.noTransports, .transport .tcp, .transport .websocket]
  else libp2pDefaultTransports

/-- The routing provider `SetupLibp2p` passes to `libp2p.Routing`: build
the dual DHT for the host under construction and hand it back. -/
def setupRoutingProvider (ds : Option Nat) (dhtMode : ModeOpt) : Host → Except String DualDHT :=
  fun h => .ok (newDHT h ds dhtMode)

/-- The mandatory options of `SetupLibp2p`: identity, listen addresses,
private network, the selected transports and the routing provider. -/
def setupMandatoryOpts (hostKey : Nat) (secret : Option Bytes) (listen : List String)
    (ds : Option Nat) (dhtMode : ModeOpt) : List Opt :=
  [.base (.identity hostKey),
   .base (.listenAddrs listen),
   .base (.privateNetwork secret),
   setupTransports secret,
   .base (.routing (setupRoutingProvider ds dhtMode))]

/-- The full option list `SetupLibp2p` hands to `libp2p.New`: mandatory
options, then the caller's extra options, then the tuned yamux muxer. -/
def setupFinalOpts (hostKey : Nat) (secret : Option Bytes) (listen : List String)
    (ds : Option Nat) (dhtMode : ModeOpt) (opts : List Opt) : List Opt :=
  setupMandatoryOpts hostKey secret listen ds dhtMode ++ opts
    ++ [.base (.muxer "/yamux/1.0.0" setupYamuxConfig)]

/-- The Go-style result triple of `SetupLibp2p`. -/
structure SetupResult where
  host : Option Host
  ddht : Option DualDHT
  err : Option String

/-- `SetupLibp2p` from `util.go`: run `libp2p.New` on the assembled
option list; on error return the Go triple `(nil, nil, err)`, on
success return the host and the DHT captured by the routing provider. -/
def SetupLibp2p (hostKey : Nat) (secret : Option Bytes) (listen : List String)
    (ds : Option Nat) (dhtMode : ModeOpt) (opts : List Opt) : SetupResult :=
  match libp2pNew (setupFinalOpts hostKey secret listen ds dhtMode opts) with
  | .error e => { host := none, ddht := none, err := some e }
  | .ok (h, d) => { host := some h, ddht := d, err := none }

/-- `Libp2pOptionsExtra` from `util.go`: NAT port mapping, the
process-wide connection manager, auto-relay with the bootstrap peers as
peer source, and the NAT service. -/
def Libp2pOptionsExtra : List Opt :=
  [.base .natPortMap,
   .base (.connectionManager connMgr),
   .base .enableAutoRelayWithPeerSource,
   .base .enableNATService]

/-- The muxer entries contributed by a base option. -/
def collectBase : BaseOpt → List (String × YamuxConfig)
  | .muxer n mc => [(n, mc)]
  | _ => []

/-- The muxer entries contributed by an option. -/
def collectOpt : Opt → List (String × YamuxConfig)
  | .base o => collectBase o
  | .chain os => (os.map collectBase).flatten

/-- The muxer entries contributed by an option list. -/
def collectOpts (l : List Opt) : List (String × YamuxConfig) :=
  (l.map collectOpt).flatten

/-- The configuration reached after the mandatory options of
`SetupLibp2p` (used to state evaluation lemmas). -/
def mandatoryConfig (k : Nat) (secret : Option Bytes) (listen : List String)
    (ds : Option Nat) (m : ModeOpt) : Config :=
  { peerKey := some k
    listenAddrs := listen
    psk := secret
    transports := some (if secret.isSome then [.tcp, .websocket] else defaultTransportList)
    muxers := none
    connMgrC := none
    routingP := some (setupRoutingProvider ds m)
    natPortMap := false
    autoRelay := false
    natService := false }

/-- A peer identifier. -/
abbrev PeerId := Nat

/-- A peer record: identifier plus the addresses it was seen under. -/
structure AddrInfo where
  id : PeerId
  addrs : List String
deriving DecidableEq, Repr

/-- A multiaddress, as far as peer-info extraction is concerned: either
it ends in a p2p component carrying a peer identifier, or it does not
(in which case extraction fails on it). -/
inductive Multiaddr where
  | p2p (transportAddr : String) (pid : PeerId)
  | bare (transportAddr : String)
deriving DecidableEq, Repr

/-- Split every multiaddress into (peer id, transport address); `none`
as soon as one address carries no peer identifier. -/
def splitAll : List Multiaddr → Option (List (PeerId × String))
  | [] => some []
  | .p2p a pid :: rest => (splitAll rest).map (fun l => (pid, a) :: l)
  | .bare _ :: _ => none

/-- Content of the map the Go helper groups addresses into, keyed by
peer identifier, listed here in first-seen key order (per-key address
lists keep insertion order, as Go's append does).  The order in which
the real helper then ranges over the map is randomized; that emission
order is modelled by `addrInfosFromP2pAddrsIn`. -/
def groupByPeer (pairs : List (PeerId × String)) : List AddrInfo :=
  pairs.foldl
    (fun acc p =>
      if acc.any (fun ai => ai.id == p.1) then
        acc.map (fun ai => if ai.id == p.1 then { ai with addrs := ai.addrs ++ [p.2] } else ai)
      else acc ++ [{ id := p.1, addrs := [p.2] }])
    []

/-- Models the external `peer.AddrInfosFromP2pAddrs`, Go-style: on
success the grouped peer records and a nil error, on any address without
a peer identifier a nil (empty) record list and an error.  This is the
canonical (first-seen key order) emission; the randomized emission order
of the Go map range is modelled by `addrInfosFromP2pAddrsIn`. -/
def addrInfosFromP2pAddrs (maddrs : List Multiaddr) : List AddrInfo × Option String :=
  match splitAll maddrs with
  | none => ([], some "invalid p2p multiaddr")
  | some pairs => (groupByPeer pairs, none)

/-- The well-known default bootstrap list of the kad-dht package: four
dnsaddr multiaddresses, each carrying a distinct peer identifier
(identifiers abstracted to 1..4). -/
def dhtDefaultBootstrapPeers : List Multiaddr :=
  [.p2p "/dnsaddr/bootstrap.libp2p.io" 1,
   .p2p "/dnsaddr/bootstrap.libp2p.io" 2,
   .p2p "/dnsaddr/bootstrap.libp2p.io" 3,
   .p2p "/dnsaddr/bootstrap.libp2p.io" 4]

/-- The body of `DefaultBootstrapPeers`, generalised over the address
list it parses: `peers, _ := peer.AddrInfosFromP2pAddrs(...)` keeps the
record list and discards the error. -/
def defaultBootstrapPeersOf (maddrs : List Multiaddr) : List AddrInfo :=
  (addrInfosFromP2pAddrs maddrs).1

/-- `DefaultBootstrapPeers` from `util.go`, applied to the default
bootstrap list. -/
def DefaultBootstrapPeers : List AddrInfo :=
  defaultBootstrapPeersOf dhtDefaultBootstrapPeers

/-- Models the external `peer.AddrInfosFromP2pAddrs` including the
randomized iteration order of the Go map it ranges over: `order` is the
key sequence that range produces in one call.  Every permutation of the
grouped keys is an achievable order; an `order` that is not a
permutation of those keys stands for the canonical first-seen order
(the totality default for the oracle parameter). -/
def addrInfosFromP2pAddrsIn (order : List PeerId) (maddrs : List Multiaddr) :
    List AddrInfo × Option String :=
  match splitAll maddrs with
  | none => ([], some "invalid p2p multiaddr")
  | some pairs =>
    let m := groupByPeer pairs
    let keys := m.map AddrInfo.id
    let keySeq := if order.Perm keys then order else keys
    (keySeq.filterMap (fun k => m.find? (fun ai => ai.id == k)), none)

/-- The result of one call to `DefaultBootstrapPeers` whose map range
visited the keys in the sequence `order`. -/
def DefaultBootstrapPeersIn (order : List PeerId) : List AddrInfo :=
  (addrInfosFromP2pAddrsIn order dhtDefaultBootstrapPeers).1

/-- `DefaultBootstrapPeers` with the ambient mutable state and the map
iteration order made explicit: the Go function reads only the immutable
default list and writes nothing, so its state-passing embedding returns
the state it was given, unchanged, alongside the records emitted in the
iteration order of that call. -/
def defaultBootstrapPeersRunIn {σ : Type} (order : List PeerId) (world : σ) :
    List AddrInfo × σ :=
  (DefaultBootstrapPeersIn order, world)

/-! Helper lemmas about option application. -/

theorem applyOpts_append (c : Config) (l1 l2 : List Opt) :
    applyOpts c (l1 ++ l2) =
      match applyOpts c l1 with
      | .ok c2 => applyOpts c2 l2
      | .error e => .error e := by
  induction l1 generalizing c with
  | nil => rfl
  | cons o os ih =>
    simp only [List.cons_append, applyOpts]
    cases applyOpt c o <;> simp [ih]

theorem applyBase_pres {c c2 : Config} {o : BaseOpt} (hok : applyBase c o = .ok c2) :
    (c.peerKey.isSome = true → c2.peerKey = c.peerKey) ∧
    (c.psk.isSome = true → c2.psk = c.psk) ∧
    (c.connMgrC.isSome = true → c2.connMgrC = c.connMgrC) ∧
    (c.routingP.isSome = true → c2.routingP = c.routingP) ∧
    c2.muxers.getD [] = c.muxers.getD [] ++ collectBase o := by
  cases o <;> simp only [applyBase] at hok <;>
    (try split at hok) <;>
    first
    | exact (Except.noConfusion hok)
    | (injection hok with h2
       subst h2
       refine ⟨?_, ?_, ?_, ?_, ?_⟩ <;> simp_all [collectBase])

theorem applyBases_pres {c c2 : Config} {os : List BaseOpt}
    (hok : applyBases c os = .ok c2) :
    (c.peerKey.isSome = true → c2.peerKey = c.peerKey) ∧
    (c.psk.isSome = true → c2.psk = c.psk) ∧
    (c.connMgrC.isSome = true → c2.connMgrC = c.connMgrC) ∧
    (c.routingP.isSome = true → c2.routingP = c.routingP) ∧
    c2.muxers.getD [] = c.muxers.getD [] ++ (os.map collectBase).flatten := by
  induction os generalizing c with
  | nil =>
    simp only [applyBases] at hok
    injection hok with h2
    subst h2
    simp
  | cons o os ih =>
    simp only [applyBases] at hok
    cases h1 : applyBase c o with
    | error e => rw [h1] at hok; exact (Except.noConfusion hok)
    | ok c1 =>
      rw [h1] at hok
      obtain ⟨p1, p2, p3, p4, p5⟩ := applyBase_pres h1
      obtain ⟨q1, q2, q3, q4, q5⟩ := ih hok
      refine ⟨?_, ?_, ?_, ?_, ?_⟩
      · intro hs; rw [q1 (by rw [p1 hs]; exact hs), p1 hs]
      · intro hs; rw [q2 (by rw [p2 hs]; exact hs), p2 hs]
      · intro hs; rw [q3 (by rw [p3 hs]; exact hs), p3 hs]
      · intro hs; rw [q4 (by rw [p4 hs]; exact hs), p4 hs]
      · rw [q5, p5]; simp [List.append_assoc]

theorem applyOpt_pres {c c2 : Config} {o : Opt} (hok : applyOpt c o = .ok c2) :
    (c.peerKey.isSome = true → c2.peerKey = c.peerKey) ∧
    (c.psk.isSome = true → c2.psk = c.psk) ∧
    (c.connMgrC.isSome = true → c2.connMgrC = c.connMgrC) ∧
    (c.routingP.isSome = true → c2.routingP = c.routingP) ∧
    c2.muxers.getD [] = c.muxers.getD [] ++ collectOpt o := by
  cases o with
  | base b => exact applyBase_pres hok
  | chain os => exact applyBases_pres hok

theorem applyOpts_pres {c c2 : Config} {l : List Opt}
    (hok : applyOpts c l = .ok c2) :
    (c.peerKey.isSome = true → c2.peerKey = c.peerKey) ∧
    (c.psk.isSome = true → c2.psk = c.psk) ∧
    (c.connMgrC.isSome = true → c2.connMgrC = c.connMgrC) ∧
    (c.routingP.isSome = true → c2.routingP = c.routingP) ∧
    c2.muxers.getD [] = c.muxers.getD [] ++ collectOpts l := by
  induction l generalizing c with
  | nil =>
    simp only [applyOpts] at hok
    injection hok with h2
    subst h2
    simp [collectOpts]
  | cons o os ih =>
    simp only [applyOpts] at hok
    cases h1 : applyOpt c o with
    | error e => rw [h1] at hok; exact (Except.noConfusion hok)
    | ok c1 =>
      rw [h1] at hok
      obtain ⟨p1, p2, p3, p4, p5⟩ := applyOpt_pres h1
      obtain ⟨q1, q2, q3, q4, q5⟩ := ih hok
      refine ⟨?_, ?_, ?_, ?_, ?_⟩
      · intro hs; rw [q1 (by rw [p1 hs]; exact hs), p1 hs]
      · intro hs; rw [q2 (by rw [p2 hs]; exact hs), p2 hs]
      · intro hs; rw [q3 (by rw [p3 hs]; exact hs), p3 hs]
      · intro hs; rw [q4 (by rw [p4 hs]; exact hs), p4 hs]
      · rw [q5, p5]; simp [collectOpts, List.append_assoc]

theorem applyFallbackDefaults_fields (c : Config) :
    (applyFallbackDefaults c).peerKey = c.peerKey ∧
    (applyFallbackDefaults c).psk = c.psk ∧
    (applyFallbackDefaults c).connMgrC = c.connMgrC ∧
    (applyFallbackDefaults c).routingP = c.routingP ∧
    (applyFallbackDefaults c).listenAddrs = c.listenAddrs := by
  unfold applyFallbackDefaults
  dsimp only
  split <;> split <;> simp_all

theorem applyFallbackDefaults_muxers {c : Config} {l : List (String × YamuxConfig)}
    (hm : c.muxers = some l) : (applyFallbackDefaults c).muxers = some l := by
  unfold applyFallbackDefaults
  dsimp only
  split <;> split <;> simp_all

theorem setupMandatory_eval (k : Nat) (secret : Option Bytes) (listen : List String)
    (ds : Option Nat) (m : ModeOpt) :
    applyOpts defaultConfig (setupMandatoryOpts k secret listen ds m) =
      .ok (mandatoryConfig k secret listen ds m) := by
  cases secret <;> rfl

theorem libp2pNew_setup_cases (k : Nat) (secret : Option Bytes) (listen : List String)
    (ds : Option Nat) (m : ModeOpt) (opts : List Opt) :
    (∃ e, libp2pNew (setupFinalOpts k secret listen ds m opts) = .error e) ∨
    (∃ c0 : Config,
      applyOpts (mandatoryConfig k secret listen ds m)
        (opts ++ [.base (.muxer "/yamux/1.0.0" setupYamuxConfig)]) = .ok c0 ∧
      pskLenOk (applyFallbackDefaults c0) = true ∧
      pskTransportsOk (applyFallbackDefaults c0) = true ∧
      libp2pNew (setupFinalOpts k secret listen ds m opts) =
        .ok (mkHost k (applyFallbackDefaults c0),
             some (newDHT (mkHost k (applyFallbackDefaults c0)) ds m))) := by
  have hsplit : setupFinalOpts k secret listen ds m opts =
      setupMandatoryOpts k secret listen ds m
        ++ (opts ++ [.base (.muxer "/yamux/1.0.0" setupYamuxConfig)]) := by
    simp [setupFinalOpts, List.append_assoc]
  cases happ : applyOpts (mandatoryConfig k secret listen ds m)
      (opts ++ [.base (.muxer "/yamux/1.0.0" setupYamuxConfig)]) with
  | error e =>
    left
    exact ⟨e, by simp only [libp2pNew, hsplit, applyOpts_append, setupMandatory_eval, happ]⟩
  | ok c0 =>
    obtain ⟨f1, f2, f3, f4, f5⟩ := applyFallbackDefaults_fields c0
    obtain ⟨p1, p2, p3, p4, p5⟩ := applyOpts_pres happ
    have hpk : (applyFallbackDefaults c0).peerKey = some k := by
      rw [f1, p1 (by rfl)]; rfl
    have hrt : (applyFallbackDefaults c0).routingP = some (setupRoutingProvider ds m) := by
      rw [f4, p4 (by rfl)]; rfl
    by_cases hlen : pskLenOk (applyFallbackDefaults c0) = true
    · by_cases htr : pskTransportsOk (applyFallbackDefaults c0) = true
      · right
        refine ⟨c0, rfl, hlen, htr, ?_⟩
        simp only [libp2pNew, hsplit, applyOpts_append, setupMandatory_eval, happ]
        rw [hpk, hrt]
        simp [hlen, htr, setupRoutingProvider]
      · left
        refine ⟨"libp2p: transport does not support private networks", ?_⟩
        simp only [libp2pNew, hsplit, applyOpts_append, setupMandatory_eval, happ]
        rw [hpk]
        rw [Bool.not_eq_true] at htr
        simp [hlen, htr]
    · left
      refine ⟨"libp2p: private network psk is not 32 bytes", ?_⟩
      simp only [libp2pNew, hsplit, applyOpts_append, setupMandatory_eval, happ]
      rw [hpk]
      rw [Bool.not_eq_true] at hlen
      simp [hlen]

theorem applyOpts_append_ok {c c2 : Config} {l1 l2 : List Opt}
    (hok : applyOpts c (l1 ++ l2) = .ok c2) :
    ∃ c1, applyOpts c l1 = .ok c1 ∧ applyOpts c1 l2 = .ok c2 := by
  rw [applyOpts_append] at hok
  cases h1 : applyOpts c l1 with
  | error e => rw [h1] at hok; exact (Except.noConfusion hok)
  | ok c1 => rw [h1] at hok; exact ⟨c1, rfl, hok⟩

theorem collectOpts_append (l1 l2 : List Opt) :
    collectOpts (l1 ++ l2) = collectOpts l1 ++ collectOpts l2 := by
  simp [collectOpts]

theorem defaultBootstrapPeersIn_eq (order : List PeerId) :
    DefaultBootstrapPeersIn order =
      (if order.Perm [1, 2, 3, 4] then order else [1, 2, 3, 4]).filterMap
        (fun k => DefaultBootstrapPeers.find? (fun ai => ai.id == k)) := rfl

theorem defaultBootstrapPeersIn_perm (order : List PeerId) :
    (DefaultBootstrapPeersIn order).Perm DefaultBootstrapPeers := by
  rw [defaultBootstrapPeersIn_eq]
  by_cases h : order.Perm [1, 2, 3, 4]
  · rw [if_pos h]
    exact h.filterMap (fun k => DefaultBootstrapPeers.find? (fun ai => ai.id == k))
  · rw [if_neg h]
    exact List.Perm.refl _

/-! Claim theorems. -/

/-- Claim C1: for every call to `SetupLibp2p`, if the secret is non-nil the
transport option passed to host construction installs exactly the
private-network-capable transports (TCP and WebSocket, clearing every
other transport); if the secret is nil, the full default transport set is
used. -/
theorem claim_c1_transport_selection (secret : Option Bytes) (c : Config) :
    (∀ s, secret = some s →
      applyOpt c (setupTransports secret) =
        .ok { c with transports := some [Transport.tcp, Transport.websocket] } ∧
      (∀ t : Transport,
        t ∈ [Transport.tcp, Transport.websocket] ↔ t.supportsPrivateNetwork = true)) ∧
    (secret = none →
      setupTransports secret = libp2pDefaultTransports ∧
      (c.transports = none →
        applyOpt c (setupTransports secret) =
          .ok { c with transports := some defaultTransportList })) := by
  constructor
  · rintro s rfl
    refine ⟨rfl, ?_⟩
    intro t
    cases t <;> simp [Transport.supportsPrivateNetwork]
  · rintro rfl
    refine ⟨rfl, ?_⟩
    intro ht
    simp [setupTransports, libp2pDefaultTransports, defaultTransportList, applyOpt, applyBases,
      applyBase, ht]

/-- Witness for C1 at concrete inputs: a 32-byte secret restricts to TCP
and WebSocket, no secret yields the default transports. -/
theorem claim_c1_witness :
    applyOpt defaultConfig (setupTransports (some (List.replicate 32 0))) =
      .ok { defaultConfig with transports := some [Transport.tcp, Transport.websocket] } ∧
    applyOpt defaultConfig (setupTransports none) =
      .ok { defaultConfig with transports := some defaultTransportList } :=
  ⟨((claim_c1_transport_selection (some (List.replicate 32 0)) defaultConfig).1 _ rfl).1,
   ((claim_c1_transport_selection none defaultConfig).2 rfl).2 rfl⟩

/-- Claim C2: with a non-nil secret, whatever extra options the caller
supplies, a successfully assembled host still carries that secret and
only transports supporting private networks; no extra option can
re-enable an excluded transport or clear the secret without failing the
whole assembly. -/
theorem claim_c2_private_network_not_overridable
    (k : Nat) (s : Bytes) (listen : List String) (ds : Option Nat) (m : ModeOpt)
    (opts : List Opt) (h : Host)
    (hh : (SetupLibp2p k (some s) listen ds m opts).host = some h) :
    h.psk = some s ∧ ∀ t ∈ h.transports, t.supportsPrivateNetwork = true := by
  rcases libp2pNew_setup_cases k (some s) listen ds m opts with
    ⟨e, he⟩ | ⟨c0, happ, hlen, htr, hok⟩
  · simp [SetupLibp2p, he] at hh
  · simp only [SetupLibp2p, hok, Option.some.injEq] at hh
    have hpsk : (applyFallbackDefaults c0).psk = some s := by
      rw [(applyFallbackDefaults_fields c0).2.1, (applyOpts_pres happ).2.1 (by rfl)]
      rfl
    subst hh
    constructor
    · show (applyFallbackDefaults c0).psk = some s
      exact hpsk
    · intro t htmem
      unfold pskTransportsOk at htr
      rw [hpsk] at htr
      have := List.all_eq_true.mp htr
      exact this t htmem

/-- Witness for C2: a concrete assembly with a 32-byte secret keeps the
secret on the host. -/
theorem claim_c2_witness :
    (SetupLibp2p 1 (some (List.replicate 32 0)) [] none ModeOpt.auto []).host.map Host.psk =
      some (some (List.replicate 32 0)) := by
  have hh : (SetupLibp2p 1 (some (List.replicate 32 0)) [] none ModeOpt.auto []).host =
      some { hostId := 1, peerstoreId := 1, listenAddrs := [],
             psk := some (List.replicate 32 0),
             transports := [Transport.tcp, Transport.websocket],
             muxers := [("/yamux/1.0.0", setupYamuxConfig)],
             connMgr := none } := by rfl
  rw [hh]
  exact congrArg some
    (claim_c2_private_network_not_overridable 1 (List.replicate 32 0) [] none ModeOpt.auto [] _ hh).1

/-- Claim C3: a non-nil secret whose length is not 32 bytes makes
assembly fail with an error, returning no host and no DHT. -/
theorem claim_c3_bad_psk_length_fails
    (k : Nat) (s : Bytes) (listen : List String) (ds : Option Nat) (m : ModeOpt)
    (opts : List Opt) (hlen : s.length ≠ 32) :
    (SetupLibp2p k (some s) listen ds m opts).host = none ∧
    (SetupLibp2p k (some s) listen ds m opts).ddht = none ∧
    (SetupLibp2p k (some s) listen ds m opts).err ≠ none := by
  rcases libp2pNew_setup_cases k (some s) listen ds m opts with
    ⟨e, he⟩ | ⟨c0, happ, hplen, htr, hok⟩
  · simp [SetupLibp2p, he]
  · exfalso
    have hpsk : (applyFallbackDefaults c0).psk = some s := by
      rw [(applyFallbackDefaults_fields c0).2.1, (applyOpts_pres happ).2.1 (by rfl)]
      rfl
    unfold pskLenOk at hplen
    rw [hpsk] at hplen
    simp at hplen
    exact hlen hplen

/-- Witness for C3: a 31-byte secret is rejected. -/
theorem claim_c3_witness :
    (SetupLibp2p 1 (some (List.replicate 31 0)) [] none ModeOpt.auto []).host = none ∧
    (SetupLibp2p 1 (some (List.replicate 31 0)) [] none ModeOpt.auto []).err ≠ none :=
  ⟨(claim_c3_bad_psk_length_fails 1 (List.replicate 31 0) [] none ModeOpt.auto []
      (by decide)).1,
   (claim_c3_bad_psk_length_fails 1 (List.replicate 31 0) [] none ModeOpt.auto []
      (by decide)).2.2⟩

/-- Claim C4: every call to `SetupLibp2p` either returns a host together
with a dual DHT and no error, or returns an error with both the host
and the DHT nil. -/
theorem claim_c4_all_or_nothing (k : Nat) (secret : Option Bytes) (listen : List String)
    (ds : Option Nat) (m : ModeOpt) (opts : List Opt) :
    ((SetupLibp2p k secret listen ds m opts).host ≠ none ∧
     (SetupLibp2p k secret listen ds m opts).ddht ≠ none ∧
     (SetupLibp2p k secret listen ds m opts).err = none) ∨
    ((SetupLibp2p k secret listen ds m opts).host = none ∧
     (SetupLibp2p k secret listen ds m opts).ddht = none ∧
     (SetupLibp2p k secret listen ds m opts).err ≠ none) := by
  rcases libp2pNew_setup_cases k secret listen ds m opts with ⟨e, he⟩ | ⟨c0, _, _, _, hok⟩
  · right; simp [SetupLibp2p, he]
  · left; simp [SetupLibp2p, hok]

/-- Claim C5: with a nil datastore each routing-table instance uses its
own independent non-persistent store, so two hosts assembled
independently never share routing records; with a non-nil datastore both
instances are bound to that same store. -/
theorem claim_c5_datastore_isolation (h : Host) (ds : Option Nat) (m : ModeOpt) :
    (∀ s, ds = some s →
      (newDHT h ds m).wan.datastore = .shared s ∧
      (newDHT h ds m).lan.datastore = .shared s) ∧
    (ds = none →
      (newDHT h ds m).wan.datastore = .fresh h.hostId false ∧
      (newDHT h ds m).lan.datastore = .fresh h.hostId true) ∧
    (∀ (h2 : Host) (m2 : ModeOpt), h.hostId ≠ h2.hostId →
      ∀ r1 ∈ (newDHT h none m).stores, ∀ r2 ∈ (newDHT h2 none m2).stores, r1 ≠ r2) := by
  refine ⟨?_, ?_, ?_⟩
  · rintro s rfl; exact ⟨rfl, rfl⟩
  · rintro rfl; exact ⟨rfl, rfl⟩
  · intro h2 m2 hne r1 hr1 r2 hr2
    have e1 : (newDHT h none m).stores =
        [.fresh h.hostId false, .fresh h.hostId true] := rfl
    have e2 : (newDHT h2 none m2).stores =
        [.fresh h2.hostId false, .fresh h2.hostId true] := rfl
    rw [e1] at hr1
    rw [e2] at hr2
    simp only [List.mem_cons, List.mem_singleton, List.not_mem_nil, or_false] at hr1 hr2
    rcases hr1 with rfl | rfl <;> rcases hr2 with rfl | rfl <;> simp_all

/-- Witness for C5 at concrete hosts: a shared store binds both
instances, a nil store yields per-instance fresh stores, and the fresh
stores of two distinct hosts differ. -/
theorem claim_c5_witness :
    ((newDHT { hostId := 1, peerstoreId := 1, listenAddrs := [], psk := none,
               transports := [], muxers := [], connMgr := none }
        (some 5) ModeOpt.auto).wan.datastore = .shared 5) ∧
    ((newDHT { hostId := 1, peerstoreId := 1, listenAddrs := [], psk := none,
               transports := [], muxers := [], connMgr := none }
        none ModeOpt.auto).wan.datastore = .fresh 1 false) ∧
    ((StoreRef.fresh 1 false : StoreRef) ≠ .fresh 2 false) :=
  ⟨((claim_c5_datastore_isolation
      { hostId := 1, peerstoreId := 1, listenAddrs := [], psk := none,
        transports := [], muxers := [], connMgr := none } (some 5) ModeOpt.auto).1 5 rfl).1,
   ((claim_c5_datastore_isolation
      { hostId := 1, peerstoreId := 1, listenAddrs := [], psk := none,
        transports := [], muxers := [], connMgr := none } none ModeOpt.auto).2.1 rfl).1,
   (claim_c5_datastore_isolation
      { hostId := 1, peerstoreId := 1, listenAddrs := [], psk := none,
        transports := [], muxers := [], connMgr := none } none ModeOpt.auto).2.2
      { hostId := 2, peerstoreId := 2, listenAddrs := [], psk := none,
        transports := [], muxers := [], connMgr := none } ModeOpt.auto
      (by decide) _ (by decide) _ (by decide)⟩

/-- Claim C6: every call to `newDHT` configures exactly two namespaced
validators — "pk" with the public-key validator and "ipns" with the
name-service validator keyed by the host's peerstore — a query
concurrency of 10, and the caller's mode, on both instances. -/
theorem claim_c6_dht_options (h : Host) (ds : Option Nat) (m : ModeOpt) :
    (newDHT h ds m).wan.validators =
      [("pk", Validator.publicKey), ("ipns", Validator.ipns (some h.peerstoreId))] ∧
    (newDHT h ds m).lan.validators =
      [("pk", Validator.publicKey), ("ipns", Validator.ipns (some h.peerstoreId))] ∧
    (newDHT h ds m).wan.alpha = 10 ∧
    (newDHT h ds m).lan.alpha = 10 ∧
    (newDHT h ds m).wan.mode = m ∧
    (newDHT h ds m).lan.mode = m := by
  cases ds <;> exact ⟨rfl, rfl, rfl, rfl, rfl, rfl⟩

/-- Counterexample to C7 as stated: a caller-supplied muxer option makes
the assembled host carry two muxer entries, not exactly one. -/
theorem claim_c7_counterexample :
    (SetupLibp2p 1 none [] none ModeOpt.auto
        [.base (.muxer "/mplex/6.7.0" yamuxDefaultConfig)]).host.map
      (fun h => h.muxers.length) = some 2 ∧
    ¬ ((SetupLibp2p 1 none [] none ModeOpt.auto
        [.base (.muxer "/mplex/6.7.0" yamuxDefaultConfig)]).host.map
      (fun h => h.muxers.length) = some 1) :=
  ⟨rfl, by decide⟩

/-- Claim C7 (amended): for every call whose extra options contribute no
muxer option, the assembled host carries exactly one muxer entry, the
yamux profile with window 4 MiB, backlog 128, keep-alive on at 15 s and
maximum message size 16 MiB; `SetupLibp2p` always appends this same
constant profile, which the caller cannot alter. -/
theorem claim_c7_sole_muxer (k : Nat) (secret : Option Bytes) (listen : List String)
    (ds : Option Nat) (m : ModeOpt) (opts : List Opt) (h : Host)
    (hnomux : collectOpts opts = [])
    (hh : (SetupLibp2p k secret listen ds m opts).host = some h) :
    h.muxers = [("/yamux/1.0.0", setupYamuxConfig)] ∧
    setupYamuxConfig.maxStreamWindowSize = 4 * 1024 * 1024 ∧
    setupYamuxConfig.acceptBacklog = 128 ∧
    setupYamuxConfig.enableKeepAlive = true ∧
    setupYamuxConfig.keepAliveIntervalSec = 15 ∧
    setupYamuxConfig.maxMessageSize = 16 * 1024 * 1024 := by
  rcases libp2pNew_setup_cases k secret listen ds m opts with
    ⟨e, he⟩ | ⟨c0, happ, _, _, hok⟩
  · simp [SetupLibp2p, he] at hh
  · simp only [SetupLibp2p, hok, Option.some.injEq] at hh
    have hmux : c0.muxers.getD [] = [("/yamux/1.0.0", setupYamuxConfig)] := by
      rw [(applyOpts_pres happ).2.2.2.2, collectOpts_append, hnomux]
      rfl
    have hsome : c0.muxers = some [("/yamux/1.0.0", setupYamuxConfig)] := by
      cases hcm : c0.muxers with
      | none => rw [hcm] at hmux; exact absurd hmux (by simp)
      | some l => rw [hcm] at hmux; simp only [Option.getD_some] at hmux; rw [hmux]
    subst hh
    refine ⟨?_, rfl, rfl, rfl, rfl, rfl⟩
    show (applyFallbackDefaults c0).muxers.getD [] = _
    rw [applyFallbackDefaults_muxers hsome]
    rfl

/-- Witness for C7 (amended) at a concrete call with no extra options. -/
theorem claim_c7_witness :
    (SetupLibp2p 1 none [] none ModeOpt.auto []).host.map Host.muxers =
      some [("/yamux/1.0.0", setupYamuxConfig)] := by
  have hh : (SetupLibp2p 1 none [] none ModeOpt.auto []).host =
      some { hostId := 1, peerstoreId := 1, listenAddrs := [], psk := none,
             transports := defaultTransportList,
             muxers := [("/yamux/1.0.0", setupYamuxConfig)],
             connMgr := none } := by rfl
  rw [hh]
  exact congrArg some
    (claim_c7_sole_muxer 1 none [] none ModeOpt.auto [] _ rfl hh).1

/-- Counterexample to C8 as stated: an assembly with no extra options
succeeds yet attaches no connection governor at all. -/
theorem claim_c8_counterexample :
    (SetupLibp2p 1 none [] none ModeOpt.auto []).err = none ∧
    (SetupLibp2p 1 none [] none ModeOpt.auto []).host.map Host.connMgr = some none :=
  ⟨rfl, rfl⟩

/-- Claim C8 (amended): the connection governor is a process-wide
constant built with low watermark 100, high watermark 600 and a
one-minute grace period, and it is attached to every successfully
assembled host whose extra options include `Libp2pOptionsExtra`; calls
that do not pass it get no governor. -/
theorem claim_c8_connmgr (k : Nat) (secret : Option Bytes) (listen : List String)
    (ds : Option Nat) (m : ModeOpt) (rest : List Opt) (h : Host)
    (hh : (SetupLibp2p k secret listen ds m (Libp2pOptionsExtra ++ rest)).host = some h) :
    h.connMgr = some connMgr ∧
    connMgr.lowWater = 100 ∧ connMgr.highWater = 600 ∧ connMgr.gracePeriodSec = 60 := by
  rcases libp2pNew_setup_cases k secret listen ds m (Libp2pOptionsExtra ++ rest) with
    ⟨e, he⟩ | ⟨c0, happ, _, _, hok⟩
  · simp [SetupLibp2p, he] at hh
  · simp only [SetupLibp2p, hok, Option.some.injEq] at hh
    rw [List.append_assoc] at happ
    obtain ⟨c1, h1, h2⟩ := applyOpts_append_ok happ
    have hLOE : applyOpts (mandatoryConfig k secret listen ds m) Libp2pOptionsExtra =
        .ok { mandatoryConfig k secret listen ds m with
              natPortMap := true, connMgrC := some connMgr,
              autoRelay := true, natService := true } := rfl
    rw [hLOE] at h1
    injection h1 with h1
    subst h1
    have hcm : c0.connMgrC = some connMgr := by
      rw [(applyOpts_pres h2).2.2.1 (by rfl)]
    subst hh
    refine ⟨?_, rfl, rfl, rfl⟩
    show (applyFallbackDefaults c0).connMgrC = some connMgr
    rw [(applyFallbackDefaults_fields c0).2.2.1, hcm]

/-- Witness for C8 (amended) at a concrete call passing
`Libp2pOptionsExtra`. -/
theorem claim_c8_witness :
    (SetupLibp2p 1 none [] none ModeOpt.auto (Libp2pOptionsExtra ++ [])).host.map
      Host.connMgr = some (some connMgr) := by
  have hh : (SetupLibp2p 1 none [] none ModeOpt.auto (Libp2pOptionsExtra ++ [])).host =
      some { hostId := 1, peerstoreId := 1, listenAddrs := [], psk := none,
             transports := defaultTransportList,
             muxers := [("/yamux/1.0.0", setupYamuxConfig)],
             connMgr := some connMgr } := by rfl
  rw [hh]
  exact congrArg some
    (claim_c8_connmgr 1 none [] none ModeOpt.auto [] _ hh).1

/-- Counterexample to C9 as stated: the emission ranges over a Go map
whose iteration order is randomized, so two calls whose ranges visit
the keys in different orders return the four default peer records as
different sequences (same records, different order). -/
theorem claim_c9_counterexample :
    (defaultBootstrapPeersRunIn [2, 1, 3, 4] (0 : Nat)).1 ≠
      (defaultBootstrapPeersRunIn [1, 2, 3, 4] (0 : Nat)).1 := by
  decide

/-- Claim C9 (amended): `DefaultBootstrapPeers` has no side effects and
every call returns the same set of peer records — a permutation of the
fixed default records, with equal membership across any two calls —
though the emission sequence follows the randomized map iteration order
of the call and may differ between calls. -/
theorem claim_c9_bootstrap_same_set (σ : Type) (order1 order2 : List PeerId) (w w2 : σ) :
    (defaultBootstrapPeersRunIn order1 w).1.Perm (defaultBootstrapPeersRunIn order2 w2).1 ∧
    (∀ ai, ai ∈ (defaultBootstrapPeersRunIn order1 w).1 ↔
      ai ∈ (defaultBootstrapPeersRunIn order2 w2).1) ∧
    (defaultBootstrapPeersRunIn order1 w).2 = w ∧
    (defaultBootstrapPeersRunIn order1 w).1.Perm DefaultBootstrapPeers :=
  ⟨(defaultBootstrapPeersIn_perm order1).trans (defaultBootstrapPeersIn_perm order2).symm,
   fun _ =>
     ((defaultBootstrapPeersIn_perm order1).trans
       (defaultBootstrapPeersIn_perm order2).symm).mem_iff,
   rfl,
   defaultBootstrapPeersIn_perm order1⟩

/-- Claim C10: `DefaultBootstrapPeers` discards the parse error — for
every input list it returns the record-list component, on a failed parse
that component is the empty list rather than an error, and the default
list itself parses cleanly. -/
theorem claim_c10_error_discarded (maddrs : List Multiaddr) :
    defaultBootstrapPeersOf maddrs = (addrInfosFromP2pAddrs maddrs).1 ∧
    ((addrInfosFromP2pAddrs maddrs).2 ≠ none → defaultBootstrapPeersOf maddrs = []) ∧
    (addrInfosFromP2pAddrs dhtDefaultBootstrapPeers).2 = none := by
  refine ⟨rfl, ?_, rfl⟩
  intro herr
  unfold defaultBootstrapPeersOf addrInfosFromP2pAddrs
  unfold addrInfosFromP2pAddrs at herr
  cases hs : splitAll maddrs with
  | none => simp
  | some pairs => rw [hs] at herr; simp at herr

/-- Witness for C10: a multiaddress without a peer component makes the
parse fail, yet the function returns the empty list. -/
theorem claim_c10_witness :
    (addrInfosFromP2pAddrs [Multiaddr.bare "/ip4/1.2.3.4/tcp/4001"]).2 ≠ none ∧
    defaultBootstrapPeersOf [Multiaddr.bare "/ip4/1.2.3.4/tcp/4001"] = [] :=
  ⟨by decide,
   (claim_c10_error_discarded [Multiaddr.bare "/ip4/1.2.3.4/tcp/4001"]).2.1 (by decide)⟩

end IpfsLite
